import Mathlib

/-!
# Customer registry service (`main.go`)

A shallow embedding of the HTTP handlers of `main.go` and the properties of
the registry they read and mutate.

* `uint8` values are `Fin 256`; the Go conversion `uint8(id)` of an `int` is
  reduction modulo `2^8` (`toUint8`).
* the package-level `db` (`map[uint8]Customer`) is a function
  `Fin 256 → Option Customer`; a handler takes the registry and returns the
  response it writes together with the registry it leaves behind.
* a request body is given by the result of decoding it (`none` when reading
  or decoding fails, which is the `err != nil` branch of the handler).
-/

namespace CRM

/-- The `Customer` struct. -/
structure Customer where
  ID : Fin 256
  Name : String
  Role : String
  Email : String
  Phone : String
  Contacted : Bool
  deriving DecidableEq, Repr

/-- The mock database `db`, a `map[uint8]Customer`. -/
abbrev Registry := Fin 256 → Option Customer

/-- The comma-ok lookup `_, ok := db[k]`. -/
def Registry.contains (db : Registry) (k : Fin 256) : Bool := (db k).isSome

/-- The map assignment `db[k] = c`. -/
def Registry.set (db : Registry) (k : Fin 256) (c : Customer) : Registry :=
  fun j => if j = k then some c else db j

/-- The builtin `delete(db, k)`. -/
def Registry.delete (db : Registry) (k : Fin 256) : Registry :=
  fun j => if j = k then none else db j

/-- The keys of the map. -/
def Registry.keys (db : Registry) : Finset (Fin 256) :=
  Finset.univ.filter (fun k => db.contains k = true)

/-- The builtin `len(db)`: the number of entries. -/
def Registry.len (db : Registry) : Nat := db.keys.card

/-- What a handler writes as the response body. -/
inductive Body where
  /-- The plain-text message of `http.Error`. -/
  | text (msg : String)
  /-- The encoding of a string by `json.NewEncoder(w).Encode`. -/
  | jsonString (msg : String)
  /-- The encoding of one customer. -/
  | jsonCustomer (c : Customer)
  /-- The encoding of the whole map. -/
  | jsonDb (db : Registry)

/-- The response of a handler: the status code and the body. A handler that
writes a body without calling `WriteHeader` answers with status 200. -/
structure Response where
  status : Nat
  body : Body

def StatusOK : Nat := 200
def StatusCreated : Nat := 201
def StatusBadRequest : Nat := 400
def StatusNotFound : Nat := 404
def StatusConflict : Nat := 409

/-- The call `http.Error(w, msg, code)`. -/
def httpError (msg : String) (code : Nat) : Response := ⟨code, Body.text msg⟩

/-! ## `strconv.Atoi` and the conversion to `uint8` -/

/-- The value of an ASCII decimal digit (`ch -= '0'; if ch > 9 { error }`). -/
def digitVal (ch : Char) : Option Nat :=
  if 48 ≤ ch.toNat ∧ ch.toNat ≤ 57 then some (ch.toNat - 48) else none

/-- The digit loop of `strconv.Atoi`: `n = n*10 + int(ch)`, a syntax error on
the first character that is not a digit. -/
def parseDigits : List Char → Nat → Option Nat
  | [], n => some n
  | ch :: rest, n =>
    match digitVal ch with
    | none => none
    | some d => parseDigits rest (n * 10 + d)

/-- The library function `strconv.Atoi` on a 64-bit platform: an optional sign
followed by at least one decimal digit, with an error (`none`) for any other
string and for a value outside the range of `int`. -/
def Atoi (s : String) : Option Int :=
  let signed : Bool × List Char :=
    match s.data with
    | '-' :: rest => (true, rest)
    | '+' :: rest => (false, rest)
    | cs => (false, cs)
  match signed.2 with
  | [] => none
  | ds =>
    match parseDigits ds 0 with
    | none => none
    | some n =>
      let v : Int := if signed.1 then -(n : Int) else (n : Int)
      if -(2 : Int) ^ 63 ≤ v ∧ v < (2 : Int) ^ 63 then some v else none

/-- The conversion `uint8(id)` of an `int`: the value modulo `2^8`. -/
def toUint8 (id : Int) : Fin 256 :=
  ⟨(id % 256).toNat, by omega⟩

/-! ## The handlers -/

/-- The helper `isValidId`: the error response it has written, or the customer
found under `uint8(id)`. -/
def isValidId (db : Registry) (idStr : String) : Except Response Customer :=
  match Atoi idStr with
  | none => Except.error (httpError "Invalid customer ID" StatusBadRequest)
  | some id =>
    match db (toUint8 id) with
    | none => Except.error (httpError "Customer not found" StatusNotFound)
    | some customer => Except.ok customer

/-- The handler `getCustomer`. -/
def getCustomer (db : Registry) (idStr : String) : Response × Registry :=
  match isValidId db idStr with
  | Except.error resp => (resp, db)
  | Except.ok customer => (⟨StatusOK, Body.jsonCustomer customer⟩, db)

/-- The handler `getAllCustomers`. -/
def getAllCustomers (db : Registry) : Response × Registry :=
  (⟨StatusOK, Body.jsonDb db⟩, db)

/-- The handler `addCustomer`; `body` is the result of reading and
unmarshalling the request body. -/
def addCustomer (db : Registry) (body : Option Customer) : Response × Registry :=
  match body with
  | none => (httpError "Invalid input format" StatusBadRequest, db)
  | some newCustomer =>
    if db.contains newCustomer.ID then
      (⟨StatusConflict, Body.jsonString "Error: Customer with this ID already exists"⟩, db)
    else
      let db1 := db.set newCustomer.ID newCustomer
      (⟨StatusCreated, Body.jsonDb db1⟩, db1)

/-- The handler `updateCustomer`. -/
def updateCustomer (db : Registry) (idStr : String) (body : Option Customer) :
    Response × Registry :=
  match isValidId db idStr with
  | Except.error resp => (resp, db)
  | Except.ok _ =>
    match body with
    | none => (httpError "Invalid request payload" StatusBadRequest, db)
    | some updatedCustomer =>
      if updatedCustomer.Name = "" ∨ updatedCustomer.Role = "" ∨
          updatedCustomer.Email = "" ∨ updatedCustomer.Phone = "" then
        (httpError "All fields (Name, Role, Email, Phone) are required" StatusBadRequest, db)
      else
        let db1 := db.set updatedCustomer.ID updatedCustomer
        (⟨StatusCreated, Body.jsonDb db1⟩, db1)

/-- The loop of `updateCustomersBatch` over the decoded records. -/
def batchLoop (db : Registry) : List Customer → Response × Registry
  | [] => (⟨StatusOK, Body.jsonDb db⟩, db)
  | customer :: rest =>
    if db.contains customer.ID then
      batchLoop (db.set customer.ID customer) rest
    else
      (httpError "Customer not found" StatusNotFound, db)

/-- The handler `updateCustomersBatch`. -/
def updateCustomersBatch (db : Registry) (body : Option (List Customer)) :
    Response × Registry :=
  match body with
  | none => (httpError "Invalid input" StatusBadRequest, db)
  | some updatedCustomers => batchLoop db updatedCustomers

/-- The handler `deleteCustomer`. -/
def deleteCustomer (db : Registry) (idStr : String) : Response × Registry :=
  match isValidId db idStr with
  | Except.error resp => (resp, db)
  | Except.ok customer =>
    let db1 := db.delete customer.ID
    (⟨StatusOK, Body.jsonDb db1⟩, db1)

/-! ## The seed state of `main` -/

def customer1 : Customer :=
  ⟨1, "John Doe", "Subscriber", "john.doe@gmail.com", "123-456-7890", true⟩

def customer2 : Customer :=
  ⟨2, "Peter Pan", "Prospect", "peter.pan@gmail.com", "321-654-0987", true⟩

def customer3 : Customer :=
  ⟨3, "Mary Jane", "Influencer", "mary.jane@gmail.com", "111-222-3333", false⟩

/-- The map before `main` runs: `map[uint8]Customer{}`. -/
def emptyDb : Registry := fun _ => none

/-- The registry once `main` has stored the three hard-coded customers. -/
def seedDb : Registry :=
  ((emptyDb.set customer1.ID customer1).set customer2.ID customer2).set customer3.ID customer3

/-! ## Requests and reachable registries -/

/-- One request to the service, with its path id and decoded body. -/
inductive Request where
  | getOne (idStr : String)
  | getAll
  | create (body : Option Customer)
  | updateOne (idStr : String) (body : Option Customer)
  | updateBatch (body : Option (List Customer))
  | delete (idStr : String)

/-- The router: the handler a request is served by. -/
def handle (db : Registry) : Request → Response × Registry
  | Request.getOne idStr => getCustomer db idStr
  | Request.getAll => getAllCustomers db
  | Request.create body => addCustomer db body
  | Request.updateOne idStr body => updateCustomer db idStr body
  | Request.updateBatch body => updateCustomersBatch db body
  | Request.delete idStr => deleteCustomer db idStr

/-- The registry after serving a sequence of requests one after the other. -/
def run (db : Registry) : List Request → Registry
  | [] => db
  | req :: rest => run (handle db req).2 rest

/-- The registries the service can be in: the seed state of `main` followed by
any sequence of requests. -/
def Reachable (db : Registry) : Prop := ∃ reqs : List Request, run seedDb reqs = db

/-- Every entry is stored under its own `ID`. -/
def KeyConsistent (db : Registry) : Prop :=
  ∀ k c, db k = some c → c.ID = k

/-- The registry with each record written under its `ID`, in order. -/
def writeAll (db : Registry) (cs : List Customer) : Registry :=
  cs.foldl (fun d c => d.set c.ID c) db

/-! ## The scenario of the specification -/

/-- The record decoded from the body of the `POST /customers` of the scenario. -/
def customer4 : Customer := ⟨4, "A", "B", "a@b.com", "1", false⟩

/-- The registry after the first Create of the scenario. -/
def afterCreate : Registry := (addCustomer seedDb (some customer4)).2

/-- The registry after the repeated Create of the scenario. -/
def afterRepeat : Registry := (addCustomer afterCreate (some customer4)).2

/-- The registry after the Delete of the scenario. -/
def afterDelete : Registry := (deleteCustomer afterRepeat "4").2

/-! ## The map operations -/

theorem Registry.set_same (db : Registry) (k : Fin 256) (c : Customer) :
    db.set k c k = some c := by
  simp [Registry.set]

theorem Registry.set_other (db : Registry) (k : Fin 256) (c : Customer) (j : Fin 256)
    (h : j ≠ k) : db.set k c j = db j := by
  simp [Registry.set, h]

theorem Registry.delete_same (db : Registry) (k : Fin 256) : db.delete k k = none := by
  simp [Registry.delete]

theorem Registry.delete_other (db : Registry) (k j : Fin 256) (h : j ≠ k) :
    db.delete k j = db j := by
  simp [Registry.delete, h]

theorem Registry.contains_iff (db : Registry) (k : Fin 256) :
    db.contains k = true ↔ ∃ c, db k = some c := by
  simp [Registry.contains, Option.isSome_iff_exists]

theorem Registry.contains_false_iff (db : Registry) (k : Fin 256) :
    db.contains k = false ↔ db k = none := by
  cases h : db k <;> simp [Registry.contains, h]

theorem Registry.mem_keys (db : Registry) (k : Fin 256) :
    k ∈ db.keys ↔ db.contains k = true := by
  simp [Registry.keys]

theorem Registry.keys_set (db : Registry) (k : Fin 256) (c : Customer) :
    (db.set k c).keys = insert k db.keys := by
  ext j
  by_cases hj : j = k
  · simp [Registry.keys, Registry.contains, Registry.set, hj]
  · simp [Registry.keys, Registry.contains, Registry.set, hj]

theorem Registry.keys_delete (db : Registry) (k : Fin 256) :
    (db.delete k).keys = db.keys.erase k := by
  ext j
  by_cases hj : j = k
  · simp [Registry.keys, Registry.contains, Registry.delete, hj]
  · simp [Registry.keys, Registry.contains, Registry.delete, hj]

theorem Registry.len_set_fresh (db : Registry) (k : Fin 256) (c : Customer)
    (h : db.contains k = false) : (db.set k c).len = db.len + 1 := by
  have hk : k ∉ db.keys := by simp [Registry.mem_keys, h]
  rw [Registry.len, Registry.keys_set, Finset.card_insert_of_not_mem hk, Registry.len]

theorem Registry.len_set_present (db : Registry) (k : Fin 256) (c : Customer)
    (h : db.contains k = true) : (db.set k c).len = db.len := by
  have hk : k ∈ db.keys := by simp [Registry.mem_keys, h]
  rw [Registry.len, Registry.keys_set, Finset.insert_eq_of_mem hk, Registry.len]

theorem Registry.len_delete_present (db : Registry) (k : Fin 256)
    (h : db.contains k = true) : (db.delete k).len + 1 = db.len := by
  have hk : k ∈ db.keys := by simp [Registry.mem_keys, h]
  rw [Registry.len, Registry.keys_delete, Finset.card_erase_add_one hk, Registry.len]

theorem Registry.delete_set_fresh (db : Registry) (k : Fin 256) (c : Customer)
    (h : db k = none) : (db.set k c).delete k = db := by
  funext j
  by_cases hj : j = k
  · simp [Registry.delete, hj, h]
  · simp [Registry.delete, Registry.set, hj]

/-! ## Parsing a decimal id -/

set_option maxRecDepth 100000 in
/-- The decimal string of a `uint8` value is parsed back to that value. -/
theorem Atoi_toString (k : Fin 256) : Atoi (toString k.val) = some (k.val : Int) := by
  revert k
  decide

theorem toUint8_natCast (k : Fin 256) : toUint8 (k.val : Int) = k := by
  apply Fin.ext
  simp only [toUint8]
  omega

theorem isValidId_toString (db : Registry) (k : Fin 256) :
    isValidId db (toString k.val) =
      match db k with
      | none => Except.error (httpError "Customer not found" StatusNotFound)
      | some customer => Except.ok customer := by
  simp only [isValidId, Atoi_toString, toUint8_natCast]

/-- The two outcomes of `isValidId` in terms of the parse and the lookup. -/
theorem isValidId_ok_iff (db : Registry) (idStr : String) (c : Customer) :
    isValidId db idStr = Except.ok c ↔
      ∃ id, Atoi idStr = some id ∧ db (toUint8 id) = some c := by
  cases hA : Atoi idStr with
  | none => simp [isValidId, hA]
  | some id =>
    cases hD : db (toUint8 id) with
    | none => simp [isValidId, hA, hD]
    | some c0 => simp [isValidId, hA, hD]

theorem isValidId_error_status (db : Registry) (idStr : String) (resp : Response)
    (h : isValidId db idStr = Except.error resp) :
    (Atoi idStr = none ∧ resp.status = 400) ∨
      (∃ id, Atoi idStr = some id ∧ db (toUint8 id) = none ∧ resp.status = 404) := by
  cases hA : Atoi idStr with
  | none =>
    simp only [isValidId, hA, Except.error.injEq] at h
    subst h
    exact Or.inl ⟨rfl, rfl⟩
  | some id =>
    cases hD : db (toUint8 id) with
    | none =>
      simp only [isValidId, hA, hD, Except.error.injEq] at h
      subst h
      exact Or.inr ⟨id, rfl, hD, rfl⟩
    | some c0 =>
      simp [isValidId, hA, hD] at h

/-! ## The batch loop -/

theorem writeAll_cons (db : Registry) (c : Customer) (cs : List Customer) :
    writeAll db (c :: cs) = writeAll (db.set c.ID c) cs := rfl

/-- While every record of a prefix finds its key, the loop has written the
prefix and goes on with the rest. -/
theorem batchLoop_append (pre rest : List Customer) (db : Registry)
    (h : ∀ j (hj : j < pre.length),
      (writeAll db (pre.take j)).contains (pre[j]).ID = true) :
    batchLoop db (pre ++ rest) = batchLoop (writeAll db pre) rest := by
  induction pre generalizing db with
  | nil => rfl
  | cons c p ih =>
    have h0 : db.contains c.ID = true := by
      simpa [writeAll] using h 0 (by simp)
    have hstep : ∀ j (hj : j < p.length),
        (writeAll (db.set c.ID c) (p.take j)).contains (p[j]).ID = true := by
      intro j hj
      simpa [writeAll] using h (j + 1) (by simpa using hj)
    simp only [List.cons_append, batchLoop, h0, if_true, writeAll_cons]
    exact ih (db.set c.ID c) hstep

/-! ## Key consistency -/

theorem keyConsistent_set (db : Registry) (c : Customer) (h : KeyConsistent db) :
    KeyConsistent (db.set c.ID c) := by
  intro k c0 hk
  by_cases hj : k = c.ID
  · subst hj
    rw [Registry.set_same] at hk
    cases hk
    rfl
  · rw [Registry.set_other db c.ID c k hj] at hk
    exact h k c0 hk

theorem keyConsistent_delete (db : Registry) (k : Fin 256) (h : KeyConsistent db) :
    KeyConsistent (db.delete k) := by
  intro j c0 hj
  by_cases hjk : j = k
  · subst hjk
    rw [Registry.delete_same] at hj
    cases hj
  · rw [Registry.delete_other db k j hjk] at hj
    exact h j c0 hj

theorem keyConsistent_batchLoop (cs : List Customer) (db : Registry)
    (h : KeyConsistent db) : KeyConsistent (batchLoop db cs).2 := by
  induction cs generalizing db with
  | nil => exact h
  | cons c rest ih =>
    unfold batchLoop
    split
    · exact ih _ (keyConsistent_set db c h)
    · exact h

theorem keyConsistent_handle (db : Registry) (req : Request) (h : KeyConsistent db) :
    KeyConsistent (handle db req).2 := by
  cases req with
  | getOne idStr =>
    simp only [handle, getCustomer]
    split <;> exact h
  | getAll => exact h
  | create body =>
    simp only [handle, addCustomer]
    split
    · exact h
    · split
      · exact h
      · exact keyConsistent_set db _ h
  | updateOne idStr body =>
    simp only [handle, updateCustomer]
    split
    · exact h
    · split
      · exact h
      · split
        · exact h
        · exact keyConsistent_set db _ h
  | updateBatch body =>
    simp only [handle, updateCustomersBatch]
    split
    · exact h
    · exact keyConsistent_batchLoop _ db h
  | delete idStr =>
    simp only [handle, deleteCustomer]
    split
    · exact h
    · exact keyConsistent_delete db _ h

theorem keyConsistent_run (reqs : List Request) (db : Registry) (h : KeyConsistent db) :
    KeyConsistent (run db reqs) := by
  induction reqs generalizing db with
  | nil => exact h
  | cons req rest ih => exact ih _ (keyConsistent_handle db req h)

theorem keyConsistent_emptyDb : KeyConsistent emptyDb := by
  intro k c h
  simp [emptyDb] at h

theorem keyConsistent_seedDb : KeyConsistent seedDb :=
  keyConsistent_set _ customer3
    (keyConsistent_set _ customer2 (keyConsistent_set _ customer1 keyConsistent_emptyDb))

theorem keyConsistent_of_reachable (db : Registry) (h : Reachable db) :
    KeyConsistent db := by
  obtain ⟨reqs, rfl⟩ := h
  exact keyConsistent_run reqs seedDb keyConsistent_seedDb

theorem reachable_seedDb : Reachable seedDb := ⟨[], rfl⟩

/-- On a key-consistent registry `deleteCustomer` removes the key the path id
was converted to. -/
theorem deleteCustomer_of_keyConsistent (db : Registry) (h : KeyConsistent db)
    (idStr : String) (id : Int) (c : Customer)
    (hA : Atoi idStr = some id) (hD : db (toUint8 id) = some c) :
    deleteCustomer db idStr =
      (⟨StatusOK, Body.jsonDb (db.delete (toUint8 id))⟩, db.delete (toUint8 id)) := by
  have hv : isValidId db idStr = Except.ok c :=
    (isValidId_ok_iff db idStr c).2 ⟨id, hA, hD⟩
  have hc : c.ID = toUint8 id := h _ _ hD
  simp only [deleteCustomer, hv, hc]

/-! ## The seed registry -/

theorem seedDb_keys : seedDb.keys = {1, 2, 3} := by
  simp only [seedDb, Registry.keys_set, customer1, customer2, customer3]
  have he : emptyDb.keys = ∅ := by
    ext k
    simp [Registry.keys, Registry.contains, emptyDb]
  rw [he]
  decide

theorem seedDb_len : seedDb.len = 3 := by
  rw [Registry.len, seedDb_keys]
  rfl

/-! ## The handlers case by case -/

theorem addCustomer_eq_of_present (db : Registry) (c : Customer) (h : db.contains c.ID = true) :
    addCustomer db (some c) =
      (⟨StatusConflict, Body.jsonString "Error: Customer with this ID already exists"⟩, db) := by
  simp [addCustomer, h]

theorem addCustomer_eq_of_fresh (db : Registry) (c : Customer) (h : db.contains c.ID = false) :
    addCustomer db (some c) =
      (⟨StatusCreated, Body.jsonDb (db.set c.ID c)⟩, db.set c.ID c) := by
  simp [addCustomer, h]

theorem getCustomer_ok (db : Registry) (idStr : String) (c : Customer)
    (h : isValidId db idStr = Except.ok c) :
    getCustomer db idStr = (⟨StatusOK, Body.jsonCustomer c⟩, db) := by
  simp only [getCustomer, h]

theorem getCustomer_error (db : Registry) (idStr : String) (resp : Response)
    (h : isValidId db idStr = Except.error resp) :
    getCustomer db idStr = (resp, db) := by
  simp only [getCustomer, h]

theorem deleteCustomer_error (db : Registry) (idStr : String) (resp : Response)
    (h : isValidId db idStr = Except.error resp) :
    deleteCustomer db idStr = (resp, db) := by
  simp only [deleteCustomer, h]

theorem updateCustomer_error (db : Registry) (idStr : String) (body : Option Customer)
    (resp : Response) (h : isValidId db idStr = Except.error resp) :
    updateCustomer db idStr body = (resp, db) := by
  simp only [updateCustomer, h]

theorem updateCustomer_eq_of_empty (db : Registry) (idStr : String) (b stored : Customer)
    (hv : isValidId db idStr = Except.ok stored)
    (hb : b.Name = "" ∨ b.Role = "" ∨ b.Email = "" ∨ b.Phone = "") :
    updateCustomer db idStr (some b) =
      (httpError "All fields (Name, Role, Email, Phone) are required" StatusBadRequest, db) := by
  simp only [updateCustomer, hv, hb, if_true]

theorem updateCustomer_eq_of_filled (db : Registry) (idStr : String) (b stored : Customer)
    (hv : isValidId db idStr = Except.ok stored)
    (hb : ¬ (b.Name = "" ∨ b.Role = "" ∨ b.Email = "" ∨ b.Phone = "")) :
    updateCustomer db idStr (some b) =
      (⟨StatusCreated, Body.jsonDb (db.set b.ID b)⟩, db.set b.ID b) := by
  simp only [updateCustomer, hv, hb, if_false]

theorem isValidId_absent (db : Registry) (idStr : String) (id : Int)
    (hA : Atoi idStr = some id) (hD : db (toUint8 id) = none) :
    isValidId db idStr = Except.error (httpError "Customer not found" StatusNotFound) := by
  simp only [isValidId, hA, hD]

/-! ## The create operation -/

/-- C1: Create with a decoded body whose ID is already a key of the registry
answers 409 Conflict and leaves the registry as it was. -/
theorem addCustomer_existing_id (db : Registry) (c : Customer)
    (h : db.contains c.ID = true) :
    (addCustomer db (some c)).1.status = 409 ∧ (addCustomer db (some c)).2 = db := by
  rw [addCustomer_eq_of_present db c h]
  exact ⟨rfl, rfl⟩

theorem addCustomer_existing_id_witness :
    seedDb.contains customer1.ID = true ∧
      (addCustomer seedDb (some customer1)).1.status = 409 ∧
      (addCustomer seedDb (some customer1)).2 = seedDb :=
  ⟨by decide, addCustomer_existing_id seedDb customer1 (by decide)⟩

/-- C2: Create with a decoded body `c` whose ID is not a key of the registry
answers 201; the registry has one entry more, its keys are the old keys and
`c.ID`, every other key holds what it held, and Get-one on the decimal string of
`c.ID` then answers 200 with exactly `c`. -/
theorem addCustomer_fresh_id (db : Registry) (c : Customer)
    (h : db.contains c.ID = false) :
    (addCustomer db (some c)).1.status = 201 ∧
      (addCustomer db (some c)).2.len = db.len + 1 ∧
      (addCustomer db (some c)).2.keys = insert c.ID db.keys ∧
      c.ID ∉ db.keys ∧
      (∀ k, k ≠ c.ID → (addCustomer db (some c)).2 k = db k) ∧
      getCustomer (addCustomer db (some c)).2 (toString c.ID.val) =
        (⟨200, Body.jsonCustomer c⟩, (addCustomer db (some c)).2) := by
  rw [addCustomer_eq_of_fresh db c h]
  refine ⟨rfl, Registry.len_set_fresh db c.ID c h, Registry.keys_set db c.ID c, ?_, ?_, ?_⟩
  · simp [Registry.mem_keys, h]
  · intro k hk
    exact Registry.set_other db c.ID c k hk
  · apply getCustomer_ok
    rw [isValidId_toString]
    simp only [Registry.set_same]

theorem addCustomer_fresh_id_witness :
    seedDb.contains customer4.ID = false ∧
      (addCustomer seedDb (some customer4)).1.status = 201 ∧
      (addCustomer seedDb (some customer4)).2.len = seedDb.len + 1 ∧
      (addCustomer seedDb (some customer4)).2.keys = insert customer4.ID seedDb.keys ∧
      customer4.ID ∉ seedDb.keys ∧
      (∀ k, k ≠ customer4.ID → (addCustomer seedDb (some customer4)).2 k = seedDb k) ∧
      getCustomer (addCustomer seedDb (some customer4)).2 (toString customer4.ID.val) =
        (⟨200, Body.jsonCustomer customer4⟩, (addCustomer seedDb (some customer4)).2) :=
  ⟨by decide, addCustomer_fresh_id seedDb customer4 (by decide)⟩

/-! ## Reading one record -/

/-- C4: Get-one on the decimal string of an id in 0..255 answers 200 with
exactly the record stored under that id when the id is a key, and 404 when it
is not; the registry is the same afterwards in both cases. -/
theorem getCustomer_decimal_id (db : Registry) (k : Fin 256) :
    (∀ c, db k = some c →
      getCustomer db (toString k.val) = (⟨200, Body.jsonCustomer c⟩, db)) ∧
    (db k = none →
      (getCustomer db (toString k.val)).1.status = 404 ∧
        (getCustomer db (toString k.val)).2 = db) := by
  constructor
  · intro c hc
    apply getCustomer_ok
    rw [isValidId_toString, hc]
  · intro hn
    have hv : isValidId db (toString k.val) =
        Except.error (httpError "Customer not found" StatusNotFound) := by
      rw [isValidId_toString, hn]
    rw [getCustomer_error db _ _ hv]
    exact ⟨rfl, rfl⟩

theorem getCustomer_decimal_id_witness :
    getCustomer seedDb (toString (2 : Fin 256).val) =
        (⟨200, Body.jsonCustomer customer2⟩, seedDb) ∧
      (getCustomer seedDb (toString (7 : Fin 256).val)).1.status = 404 ∧
      (getCustomer seedDb (toString (7 : Fin 256).val)).2 = seedDb :=
  ⟨(getCustomer_decimal_id seedDb 2).1 customer2 (by decide),
    (getCustomer_decimal_id seedDb 7).2 (by decide)⟩

/-! ## Path ids outside 0..255 -/

/-- A path id that `strconv.Atoi` rejects is answered with 400 by Get-one,
Update-one and Delete, and the registry stays as it was. -/
theorem isValidId_parse_error (db : Registry) (idStr : String) (body : Option Customer)
    (h : Atoi idStr = none) :
    getCustomer db idStr = (httpError "Invalid customer ID" 400, db) ∧
      updateCustomer db idStr body = (httpError "Invalid customer ID" 400, db) ∧
      deleteCustomer db idStr = (httpError "Invalid customer ID" 400, db) := by
  have hv : isValidId db idStr =
      Except.error (httpError "Invalid customer ID" StatusBadRequest) := by
    simp only [isValidId, h]
  exact ⟨getCustomer_error db idStr _ hv, updateCustomer_error db idStr body _ hv,
    deleteCustomer_error db idStr _ hv⟩

/-- C3: on the seed registry the path ids "257" and "-255" pass `isValidId`
and are served as id 1: Get-one answers 200 with the first seed customer,
Update-one answers 201 and Delete removes the entry under key 1, while the
non-numeric "abc" is answered with 400. -/
theorem isValidId_wraps_out_of_range :
    getCustomer seedDb "257" = (⟨200, Body.jsonCustomer customer1⟩, seedDb) ∧
      getCustomer seedDb "-255" = (⟨200, Body.jsonCustomer customer1⟩, seedDb) ∧
      (updateCustomer seedDb "257" (some customer4)).1.status = 201 ∧
      (deleteCustomer seedDb "257").1.status = 200 ∧
      (deleteCustomer seedDb "257").2 1 = none ∧
      seedDb 1 = some customer1 ∧
      (getCustomer seedDb "abc").1.status = 400 := by
  have h257 : isValidId seedDb "257" = Except.ok customer1 :=
    (isValidId_ok_iff seedDb "257" customer1).2 ⟨257, by decide, by decide⟩
  have hneg : isValidId seedDb "-255" = Except.ok customer1 :=
    (isValidId_ok_iff seedDb "-255" customer1).2 ⟨-255, by decide, by decide⟩
  refine ⟨getCustomer_ok _ _ _ h257, getCustomer_ok _ _ _ hneg, ?_, ?_, ?_, by decide,
    by decide⟩
  · rw [updateCustomer_eq_of_filled seedDb "257" customer4 customer1 h257 (by decide)]
    rfl
  · simp only [deleteCustomer, h257]
    rfl
  · simp only [deleteCustomer, h257]
    exact Registry.delete_same seedDb 1

/-! ## Updating one record -/

/-- C5: Update-one with a decoded body in which Name, Role, Email or Phone is
empty leaves the registry as it was whatever the path id, and answers 400
whenever the path id passes `isValidId`. -/
theorem updateCustomer_empty_field (db : Registry) (idStr : String) (b : Customer)
    (hb : b.Name = "" ∨ b.Role = "" ∨ b.Email = "" ∨ b.Phone = "") :
    (updateCustomer db idStr (some b)).2 = db ∧
      (∀ stored, isValidId db idStr = Except.ok stored →
        (updateCustomer db idStr (some b)).1.status = 400) := by
  constructor
  · cases hv : isValidId db idStr with
    | error resp => rw [updateCustomer_error db idStr _ resp hv]
    | ok stored => rw [updateCustomer_eq_of_empty db idStr b stored hv hb]
  · intro stored hv
    rw [updateCustomer_eq_of_empty db idStr b stored hv hb]
    rfl

theorem updateCustomer_empty_field_witness :
    (updateCustomer seedDb "2" (some ⟨2, "Peter Pan", "", "p@pan.org", "321", true⟩)).2
        = seedDb ∧
      (updateCustomer seedDb "2"
        (some ⟨2, "Peter Pan", "", "p@pan.org", "321", true⟩)).1.status = 400 :=
  ⟨(updateCustomer_empty_field seedDb "2" ⟨2, "Peter Pan", "", "p@pan.org", "321", true⟩
      (Or.inr (Or.inl rfl))).1,
    (updateCustomer_empty_field seedDb "2" ⟨2, "Peter Pan", "", "p@pan.org", "321", true⟩
      (Or.inr (Or.inl rfl))).2 customer2
      ((isValidId_ok_iff seedDb "2" customer2).2 ⟨2, by decide, by decide⟩)⟩

/-- C8: Update-one with a path id that `isValidId` finds among the keys and a decoded
body `b` whose Name, Role, Email and Phone are non-empty answers 201 and stores
`b` under `b.ID`, every other key holding what it held. When `b.ID` is not the
path id the record under the path id stays, and when `b.ID` was not a key the
registry gains an entry. -/
theorem updateCustomer_writes_body_id (db : Registry) (idStr : String) (id : Int)
    (stored b : Customer)
    (hA : Atoi idStr = some id) (hD : db (toUint8 id) = some stored)
    (hN : b.Name ≠ "") (hR : b.Role ≠ "") (hE : b.Email ≠ "") (hP : b.Phone ≠ "") :
    (updateCustomer db idStr (some b)).1.status = 201 ∧
      (updateCustomer db idStr (some b)).2 b.ID = some b ∧
      (∀ k, k ≠ b.ID → (updateCustomer db idStr (some b)).2 k = db k) ∧
      (b.ID ≠ toUint8 id →
        (updateCustomer db idStr (some b)).2 (toUint8 id) = some stored) ∧
      (db b.ID = none →
        (updateCustomer db idStr (some b)).2.len = db.len + 1 ∧
          (updateCustomer db idStr (some b)).2.keys = insert b.ID db.keys) ∧
      (db.contains b.ID = true → (updateCustomer db idStr (some b)).2.len = db.len) := by
  have hv : isValidId db idStr = Except.ok stored :=
    (isValidId_ok_iff db idStr stored).2 ⟨id, hA, hD⟩
  have hb : ¬ (b.Name = "" ∨ b.Role = "" ∨ b.Email = "" ∨ b.Phone = "") := by
    rintro (h | h | h | h)
    · exact hN h
    · exact hR h
    · exact hE h
    · exact hP h
  rw [updateCustomer_eq_of_filled db idStr b stored hv hb]
  refine ⟨rfl, Registry.set_same db b.ID b, ?_, ?_, ?_, ?_⟩
  · intro k hk
    exact Registry.set_other db b.ID b k hk
  · intro hne
    show db.set b.ID b (toUint8 id) = some stored
    rw [Registry.set_other db b.ID b _ (Ne.symm hne), hD]
  · intro hnone
    exact ⟨Registry.len_set_fresh db b.ID b ((Registry.contains_false_iff db b.ID).2 hnone),
      Registry.keys_set db b.ID b⟩
  · intro hc
    exact Registry.len_set_present db b.ID b hc

theorem updateCustomer_writes_body_id_witness :
    Atoi "1" = some 1 ∧ seedDb (toUint8 1) = some customer1 ∧
      customer4.Name ≠ "" ∧ customer4.Role ≠ "" ∧ customer4.Email ≠ "" ∧
      customer4.Phone ≠ "" ∧
      (updateCustomer seedDb "1" (some customer4)).1.status = 201 ∧
      (updateCustomer seedDb "1" (some customer4)).2 customer4.ID = some customer4 ∧
      (∀ k, k ≠ customer4.ID → (updateCustomer seedDb "1" (some customer4)).2 k = seedDb k) ∧
      (updateCustomer seedDb "1" (some customer4)).2 (toUint8 1) = some customer1 ∧
      (updateCustomer seedDb "1" (some customer4)).2.len = seedDb.len + 1 :=
  have h := updateCustomer_writes_body_id seedDb "1" 1 customer1 customer4
    (by decide) (by decide) (by decide) (by decide) (by decide) (by decide)
  ⟨by decide, by decide, by decide, by decide, by decide, by decide,
    h.1, h.2.1, h.2.2.1, h.2.2.2.1 (by decide), (h.2.2.2.2.1 (by decide)).1⟩

/-! ## The batch update -/

/-- C6: Batch update on a decoded array `cs`. When the records before index `i`
each find their ID among the keys at the moment they are processed, then: if
`i` is the length of the array the answer is 200 and the registry is the
original with every record written under its ID in array order; if the record
at index `i` does not find its ID the answer is 404 and the registry is the
original with exactly the records before index `i` written in order, whatever
the records from `i` on are. -/
theorem updateCustomersBatch_first_missing (db : Registry) (cs : List Customer) (i : Nat)
    (hi : i ≤ cs.length)
    (hpre : ∀ j (hj : j < i),
      (writeAll db (cs.take j)).contains (cs[j]).ID = true) :
    (i = cs.length →
      updateCustomersBatch db (some cs) =
        (⟨200, Body.jsonDb (writeAll db cs)⟩, writeAll db cs)) ∧
    (∀ hlt : i < cs.length,
      (writeAll db (cs.take i)).contains (cs[i]).ID = false →
      updateCustomersBatch db (some cs) =
        (httpError "Customer not found" 404, writeAll db (cs.take i))) := by
  have hlen : (cs.take i).length = i := by simp [hi]
  have hsplit : batchLoop db (cs.take i ++ cs.drop i) =
      batchLoop (writeAll db (cs.take i)) (cs.drop i) := by
    apply batchLoop_append
    intro j hj
    have hji : j < i := by omega
    have h1 : (cs.take i).take j = cs.take j := by
      rw [List.take_take, Nat.min_eq_left (Nat.le_of_lt hji)]
    have h2 : (cs.take i)[j] = cs[j] := by simp
    rw [h1, h2]
    exact hpre j hji
  rw [List.take_append_drop] at hsplit
  constructor
  · intro hend
    subst hend
    simp only [updateCustomersBatch, hsplit, List.drop_length, List.take_length]
    rfl
  · intro hlt hmiss
    simp only [updateCustomersBatch, hsplit]
    rw [List.drop_eq_getElem_cons hlt]
    simp only [batchLoop, hmiss]
    rfl

theorem updateCustomersBatch_first_missing_witness :
    updateCustomersBatch seedDb (some [customer2, customer4, customer1]) =
      (httpError "Customer not found" 404, writeAll seedDb [customer2]) :=
  (updateCustomersBatch_first_missing seedDb [customer2, customer4, customer1] 1
    (by decide)
    (by
      intro j hj
      have h0 : j = 0 := by omega
      subst h0
      exact (by decide : (writeAll seedDb []).contains customer2.ID = true))).2
    (by decide)
    (by decide : (writeAll seedDb [customer2]).contains customer4.ID = false)

/-! ## Deleting a record -/

/-- C7: on a reachable registry, Delete with a path id that passes `isValidId`
answers 200 and leaves a registry that no longer has the validated id, holds
every other key as before and has one entry fewer, so that Get-one with the
same path id then answers 404. When `isValidId` fails, with 400 or 404, the
registry is as it was. -/
theorem deleteCustomer_removes_validated_id (db : Registry) (hr : Reachable db)
    (idStr : String) :
    (∀ c, isValidId db idStr = Except.ok c →
      ∃ id, Atoi idStr = some id ∧
        (deleteCustomer db idStr).1.status = 200 ∧
        (deleteCustomer db idStr).2 (toUint8 id) = none ∧
        (∀ k, k ≠ toUint8 id → (deleteCustomer db idStr).2 k = db k) ∧
        (deleteCustomer db idStr).2.len + 1 = db.len ∧
        (getCustomer (deleteCustomer db idStr).2 idStr).1.status = 404) ∧
    (∀ resp, isValidId db idStr = Except.error resp →
      (resp.status = 400 ∨ resp.status = 404) ∧ deleteCustomer db idStr = (resp, db)) := by
  have hk : KeyConsistent db := keyConsistent_of_reachable db hr
  constructor
  · intro c hv
    obtain ⟨id, hA, hD⟩ := (isValidId_ok_iff db idStr c).1 hv
    refine ⟨id, hA, ?_⟩
    rw [deleteCustomer_of_keyConsistent db hk idStr id c hA hD]
    refine ⟨rfl, Registry.delete_same db _, ?_, ?_, ?_⟩
    · intro k hne
      exact Registry.delete_other db _ k hne
    · exact Registry.len_delete_present db _ ((Registry.contains_iff db _).2 ⟨c, hD⟩)
    · rw [getCustomer_error _ idStr _
        (isValidId_absent _ idStr id hA (Registry.delete_same db _))]
      rfl
  · intro resp he
    refine ⟨?_, deleteCustomer_error db idStr resp he⟩
    rcases isValidId_error_status db idStr resp he with ⟨_, h⟩ | ⟨_, _, _, h⟩
    · exact Or.inl h
    · exact Or.inr h

theorem deleteCustomer_removes_validated_id_witness :
    Reachable seedDb ∧
      ∃ id, Atoi "3" = some id ∧
        (deleteCustomer seedDb "3").1.status = 200 ∧
        (deleteCustomer seedDb "3").2 (toUint8 id) = none ∧
        (∀ k, k ≠ toUint8 id → (deleteCustomer seedDb "3").2 k = seedDb k) ∧
        (deleteCustomer seedDb "3").2.len + 1 = seedDb.len ∧
        (getCustomer (deleteCustomer seedDb "3").2 "3").1.status = 404 :=
  ⟨reachable_seedDb,
    (deleteCustomer_removes_validated_id seedDb reachable_seedDb "3").1 customer3
      ((isValidId_ok_iff seedDb "3" customer3).2 ⟨3, by decide, by decide⟩)⟩

/-! ## The scenario from the seed state -/

theorem afterCreate_eq : afterCreate = seedDb.set 4 customer4 := by
  unfold afterCreate
  rw [addCustomer_eq_of_fresh seedDb customer4 (by decide)]
  rfl

theorem afterRepeat_eq : afterRepeat = seedDb.set 4 customer4 := by
  unfold afterRepeat
  rw [afterCreate_eq, addCustomer_eq_of_present _ customer4 (by decide)]

theorem afterDelete_eq : afterDelete = seedDb := by
  have hv : isValidId (seedDb.set 4 customer4) "4" = Except.ok customer4 :=
    (isValidId_ok_iff _ "4" customer4).2 ⟨4, by decide, by decide⟩
  unfold afterDelete
  rw [afterRepeat_eq]
  simp only [deleteCustomer, hv]
  exact Registry.delete_set_fresh seedDb 4 customer4 (by decide)

/-- C9: from the seed registry, whose keys are exactly 1, 2 and 3, Create with
the record of id 4 answers 201 and leaves 4 entries; the same Create again
answers 409 and still leaves 4 entries; Delete with path id "4" leaves the 3
seed entries under ids 1, 2 and 3; Get-one with path id "4" then answers 404. -/
theorem seed_scenario :
    seedDb.keys = {1, 2, 3} ∧
      (addCustomer seedDb (some customer4)).1.status = 201 ∧
      afterCreate.len = 4 ∧
      (addCustomer afterCreate (some customer4)).1.status = 409 ∧
      afterRepeat.len = 4 ∧
      afterDelete.len = 3 ∧
      afterDelete.keys = {1, 2, 3} ∧
      afterDelete 1 = some customer1 ∧
      afterDelete 2 = some customer2 ∧
      afterDelete 3 = some customer3 ∧
      (getCustomer afterDelete "4").1.status = 404 := by
  have hlen : (seedDb.set 4 customer4).len = 4 := by
    rw [Registry.len_set_fresh seedDb 4 customer4 (by decide), seedDb_len]
  refine ⟨seedDb_keys, ?_, ?_, ?_, ?_, ?_, ?_, ?_, ?_, ?_, ?_⟩
  · rw [addCustomer_eq_of_fresh seedDb customer4 (by decide)]
    rfl
  · rw [afterCreate_eq, hlen]
  · rw [afterCreate_eq, addCustomer_eq_of_present _ customer4 (by decide)]
    rfl
  · rw [afterRepeat_eq, hlen]
  · rw [afterDelete_eq, seedDb_len]
  · rw [afterDelete_eq, seedDb_keys]
  · rw [afterDelete_eq]
    decide
  · rw [afterDelete_eq]
    decide
  · rw [afterDelete_eq]
    decide
  · rw [afterDelete_eq,
      getCustomer_error seedDb "4" _ (isValidId_absent seedDb "4" 4 (by decide) (by decide))]
    rfl

/-! ## The invariant of the reachable registries -/

/-- C10: in every registry reachable from the seed state by any sequence of
Get-one, Get-all, Create, Update-one, Batch update and Delete requests, every
entry stored under a key `k` has its ID equal to `k`; hence Delete, which
removes the key `customer.ID` of the record it looked up, removes the key the
path id was converted to, that is the entry that was looked up. -/
theorem reachable_key_is_ID (db : Registry) (hr : Reachable db) :
    (∀ k c, db k = some c → c.ID = k) ∧
      (∀ idStr c, isValidId db idStr = Except.ok c →
        ∃ id, Atoi idStr = some id ∧ db (toUint8 id) = some c ∧ c.ID = toUint8 id ∧
          (deleteCustomer db idStr).2 = db.delete (toUint8 id)) := by
  have hk : KeyConsistent db := keyConsistent_of_reachable db hr
  refine ⟨hk, ?_⟩
  intro idStr c hv
  obtain ⟨id, hA, hD⟩ := (isValidId_ok_iff db idStr c).1 hv
  refine ⟨id, hA, hD, hk _ _ hD, ?_⟩
  rw [deleteCustomer_of_keyConsistent db hk idStr id c hA hD]

theorem reachable_key_is_ID_witness :
    Reachable (run seedDb [Request.create (some customer4), Request.delete "257",
        Request.updateOne "2" (some customer3)]) ∧
      ∀ k c, run seedDb [Request.create (some customer4), Request.delete "257",
        Request.updateOne "2" (some customer3)] k = some c → c.ID = k :=
  ⟨⟨_, rfl⟩, (reachable_key_is_ID _ ⟨_, rfl⟩).1⟩

end CRM
